import Mathlib

/-!
Verification of the `time-series-filter` crate: an exponentially weighted
moving average (EWMA) filter over a stream of numeric samples, together with
exponentially fading local minimum / maximum bounds.

The crate provides two engines implementing the same `EwmaFilter` trait:

* `FloatSeriesEwmaFilter<T: Float>` — weight is a single fractional `alpha`;
  we embed it with exact rational arithmetic (`ℚ`), the idealization of the
  IEEE floating-point arithmetic used by the source.
* `IntSeriesEwmaFilter<T: PrimInt>` — weight is an integer ratio
  `alpha_numerator / alpha_denominator`; the Rust `/` on integers truncates
  toward zero, which is `Int.tdiv` on `ℤ`.  We embed the signed instantiation
  on `ℤ` (no overflow), and separately the `u32` instantiation with wrapping
  arithmetic modulo 2^32 for claims about unsigned wraparound.

A `&mut self` method returning `T` becomes a function `State → T × State`;
a `&self` method becomes `State → T × State` whose second component is the
unchanged state.
-/

namespace TimeSeriesFilter

/-- Embedding of `FloatSeriesEwmaFilter<T>` (src/lib.rs lines 20–31) at exact
rational arithmetic. -/
structure FloatSeriesEwmaFilter where
  sample_count : Nat
  local_min : ℚ
  local_max : ℚ
  average : ℚ
  alpha : ℚ
deriving DecidableEq

namespace FloatSeriesEwmaFilter

/-- `FloatSeriesEwmaFilter::new` (src/lib.rs lines 37–45). -/
def new (alpha : ℚ) : FloatSeriesEwmaFilter :=
  { sample_count := 0
    alpha := alpha
    local_min := 0
    local_max := 0
    average := 0 }

/-- `FloatSeriesEwmaFilter::push_sample` (src/lib.rs lines 57–82).  The Rust
method mutates `self` and returns `self.average`; the updated average is
written before the extrema branches, so the fade conditions compare against
the updated average. -/
def push_sample (s : FloatSeriesEwmaFilter) (new_value : ℚ) :
    ℚ × FloatSeriesEwmaFilter :=
  if s.sample_count = 0 then
    let s' := { s with
      local_min := new_value
      local_max := new_value
      average := new_value
      sample_count := s.sample_count + 1 }
    (s'.average, s')
  else
    let avg := s.average + s.alpha * (new_value - s.average)
    let mx :=
      if new_value > s.local_max then new_value
      else if new_value > avg then s.local_max + s.alpha * (new_value - s.local_max)
      else s.local_max
    let mn :=
      if new_value < s.local_min then new_value
      else if new_value < avg then s.local_min + s.alpha * (new_value - s.local_min)
      else s.local_min
    let s' := { s with
      average := avg
      local_max := mx
      local_min := mn
      sample_count := s.sample_count + 1 }
    (s'.average, s')

/-- `FloatSeriesEwmaFilter::ewma_average` (src/lib.rs lines 84–86): a `&self`
method, so the state comes back unchanged. -/
def ewma_average (s : FloatSeriesEwmaFilter) : ℚ × FloatSeriesEwmaFilter :=
  (s.average, s)

/-- `FloatSeriesEwmaFilter::local_range` (src/lib.rs lines 88–90): returns
`self.local_min..self.local_max` (a `Range` is its two endpoints); `&self`,
so the state comes back unchanged. -/
def local_range (s : FloatSeriesEwmaFilter) : (ℚ × ℚ) × FloatSeriesEwmaFilter :=
  ((s.local_min, s.local_max), s)

/-- Push a whole list of samples in order, discarding the returned averages. -/
def pushList (s : FloatSeriesEwmaFilter) (vs : List ℚ) : FloatSeriesEwmaFilter :=
  vs.foldl (fun t v => (t.push_sample v).2) s

/-- Push the same value `k`, `n` times. -/
def pushConst (s : FloatSeriesEwmaFilter) (k : ℚ) : Nat → FloatSeriesEwmaFilter
  | 0 => s
  | n + 1 => ((pushConst s k n).push_sample k).2

end FloatSeriesEwmaFilter

/-- Embedding of `IntSeriesEwmaFilter<T>` (src/lib.rs lines 93–106) at a
signed integer instantiation, with unbounded `ℤ` (claims that use it assume
no overflow).  Rust integer division truncates toward zero: `Int.tdiv`. -/
structure IntSeriesEwmaFilter where
  sample_count : Nat
  local_min : ℤ
  local_max : ℤ
  average : ℤ
  alpha_numerator : ℤ
  alpha_denominator : ℤ
deriving DecidableEq

namespace IntSeriesEwmaFilter

/-- `IntSeriesEwmaFilter::new` (src/lib.rs lines 112–121). -/
def new (alpha_numerator alpha_denominator : ℤ) : IntSeriesEwmaFilter :=
  { sample_count := 0
    alpha_numerator := alpha_numerator
    alpha_denominator := alpha_denominator
    local_min := 0
    local_max := 0
    average := 0 }

/-- `IntSeriesEwmaFilter::push_sample` (src/lib.rs lines 133–161).  The
multiply happens before the truncating divide, exactly as in the source. -/
def push_sample (s : IntSeriesEwmaFilter) (new_value : ℤ) :
    ℤ × IntSeriesEwmaFilter :=
  if s.sample_count = 0 then
    let s' := { s with
      local_min := new_value
      local_max := new_value
      average := new_value
      sample_count := s.sample_count + 1 }
    (s'.average, s')
  else
    let avg := s.average +
      (s.alpha_numerator * (new_value - s.average)).tdiv s.alpha_denominator
    let mx :=
      if new_value > s.local_max then new_value
      else if new_value > avg then
        s.local_max + (s.alpha_numerator * (new_value - s.local_max)).tdiv s.alpha_denominator
      else s.local_max
    let mn :=
      if new_value < s.local_min then new_value
      else if new_value < avg then
        s.local_min + (s.alpha_numerator * (new_value - s.local_min)).tdiv s.alpha_denominator
      else s.local_min
    let s' := { s with
      average := avg
      local_max := mx
      local_min := mn
      sample_count := s.sample_count + 1 }
    (s'.average, s')

/-- `IntSeriesEwmaFilter::ewma_average` (src/lib.rs lines 163–165): `&self`,
state unchanged. -/
def ewma_average (s : IntSeriesEwmaFilter) : ℤ × IntSeriesEwmaFilter :=
  (s.average, s)

/-- `IntSeriesEwmaFilter::local_range` (src/lib.rs lines 167–169): `&self`,
state unchanged. -/
def local_range (s : IntSeriesEwmaFilter) : (ℤ × ℤ) × IntSeriesEwmaFilter :=
  ((s.local_min, s.local_max), s)

/-- Push a whole list of samples in order. -/
def pushList (s : IntSeriesEwmaFilter) (vs : List ℤ) : IntSeriesEwmaFilter :=
  vs.foldl (fun t v => (t.push_sample v).2) s

/-- Push the same value `k`, `n` times. -/
def pushConst (s : IntSeriesEwmaFilter) (k : ℤ) : Nat → IntSeriesEwmaFilter
  | 0 => s
  | n + 1 => ((pushConst s k n).push_sample k).2

/-- `push_sample` with every Rust integer division guarded: Rust's `/` on a
zero divisor is a runtime arithmetic fault (panic), which the embedding
renders as `none`.  The branch structure matches `push_sample` exactly, and
a division is checked only where the source actually executes one. -/
def push_sample_checked (s : IntSeriesEwmaFilter) (new_value : ℤ) :
    Option (ℤ × IntSeriesEwmaFilter) :=
  if s.sample_count = 0 then
    let s' := { s with
      local_min := new_value
      local_max := new_value
      average := new_value
      sample_count := s.sample_count + 1 }
    some (s'.average, s')
  else if s.alpha_denominator = 0 then none
  else some (s.push_sample new_value)

end IntSeriesEwmaFilter

/-- The modulus of `u32` arithmetic. -/
def u32Mod : Nat := 4294967296

/-- Wrapping `u32` addition (release-build two's-complement wrap). -/
def wadd (a b : Nat) : Nat := (a + b) % u32Mod

/-- Wrapping `u32` subtraction `a - b` (release-build two's-complement wrap). -/
def wsub (a b : Nat) : Nat := (a + (u32Mod - b % u32Mod)) % u32Mod

/-- Wrapping `u32` multiplication (release-build two's-complement wrap). -/
def wmul (a b : Nat) : Nat := a * b % u32Mod

/-- The `T = u32` instantiation of `IntSeriesEwmaFilter<T>` (src/lib.rs lines
93–106), as exercised by the crate's `integer_basic` test: fields are `u32`
values (naturals kept below 2^32), arithmetic wraps modulo 2^32, and division
is truncating `u32` division. -/
structure IntSeriesEwmaFilterU32 where
  sample_count : Nat
  local_min : Nat
  local_max : Nat
  average : Nat
  alpha_numerator : Nat
  alpha_denominator : Nat
deriving DecidableEq

namespace IntSeriesEwmaFilterU32

/-- `IntSeriesEwmaFilter::new` (src/lib.rs lines 112–121) at `T = u32`. -/
def new (alpha_numerator alpha_denominator : Nat) : IntSeriesEwmaFilterU32 :=
  { sample_count := 0
    alpha_numerator := alpha_numerator
    alpha_denominator := alpha_denominator
    local_min := 0
    local_max := 0
    average := 0 }

/-- `IntSeriesEwmaFilter::push_sample` (src/lib.rs lines 133–161) at
`T = u32`: subtraction, multiplication and the `+=` wrap modulo 2^32,
division truncates. -/
def push_sample (s : IntSeriesEwmaFilterU32) (new_value : Nat) :
    Nat × IntSeriesEwmaFilterU32 :=
  if s.sample_count = 0 then
    let s' := { s with
      local_min := new_value
      local_max := new_value
      average := new_value
      sample_count := s.sample_count + 1 }
    (s'.average, s')
  else
    let avg := wadd s.average
      (wmul s.alpha_numerator (wsub new_value s.average) / s.alpha_denominator)
    let mx :=
      if new_value > s.local_max then new_value
      else if new_value > avg then
        wadd s.local_max
          (wmul s.alpha_numerator (wsub new_value s.local_max) / s.alpha_denominator)
      else s.local_max
    let mn :=
      if new_value < s.local_min then new_value
      else if new_value < avg then
        wadd s.local_min
          (wmul s.alpha_numerator (wsub new_value s.local_min) / s.alpha_denominator)
      else s.local_min
    let s' := { s with
      average := avg
      local_max := mx
      local_min := mn
      sample_count := s.sample_count + 1 }
    (s'.average, s')

/-- `IntSeriesEwmaFilter::ewma_average` (src/lib.rs lines 163–165) at
`T = u32`: `&self`, state unchanged. -/
def ewma_average (s : IntSeriesEwmaFilterU32) : Nat × IntSeriesEwmaFilterU32 :=
  (s.average, s)

/-- `IntSeriesEwmaFilter::local_range` (src/lib.rs lines 167–169) at
`T = u32`: `&self`, state unchanged. -/
def local_range (s : IntSeriesEwmaFilterU32) : (Nat × Nat) × IntSeriesEwmaFilterU32 :=
  ((s.local_min, s.local_max), s)

/-- Push the ramp `a, a+1, ..., a+n-1` in order. -/
def pushRampFrom (s : IntSeriesEwmaFilterU32) (a : Nat) : Nat → IntSeriesEwmaFilterU32
  | 0 => s
  | n + 1 => ((pushRampFrom s a n).push_sample (a + n)).2

/-- Push the ramp `0, 1, ..., n-1` in order, as the `integer_basic` test does. -/
def pushRamp (s : IntSeriesEwmaFilterU32) (n : Nat) : IntSeriesEwmaFilterU32 :=
  pushRampFrom s 0 n

end IntSeriesEwmaFilterU32

/-- The bounding invariant of the float filter state:
`local_min ≤ average ≤ local_max`. -/
def FloatSeriesEwmaFilter.bounded (s : FloatSeriesEwmaFilter) : Prop :=
  s.local_min ≤ s.average ∧ s.average ≤ s.local_max

instance (s : FloatSeriesEwmaFilter) : Decidable s.bounded :=
  inferInstanceAs (Decidable (_ ≤ _ ∧ _ ≤ _))

/-- The bounding invariant of the integer filter state:
`local_min ≤ average ≤ local_max`. -/
def IntSeriesEwmaFilter.bounded (s : IntSeriesEwmaFilter) : Prop :=
  s.local_min ≤ s.average ∧ s.average ≤ s.local_max

instance (s : IntSeriesEwmaFilter) : Decidable s.bounded :=
  inferInstanceAs (Decidable (_ ≤ _ ∧ _ ≤ _))

/-- `f n` tends to `l` as `n → ∞` (ε-N convergence over `ℚ`). -/
def ConvergesTo (f : ℕ → ℚ) (l : ℚ) : Prop :=
  ∀ ε : ℚ, 0 < ε → ∃ N : ℕ, ∀ n : ℕ, N ≤ n → |f n - l| < ε

/-- A reachable float-filter state — obtained by pushing `1000` then `-200`
into a fresh filter with `alpha = 1/2` — whose average sits exactly at `400`
with `local_max = 1000`. -/
def sStar : FloatSeriesEwmaFilter :=
  FloatSeriesEwmaFilter.pushList (FloatSeriesEwmaFilter.new (1/2)) [1000, -200]

/-- A concrete seeded float-mode state used to instantiate theorems. -/
def sfZero : FloatSeriesEwmaFilter :=
  { sample_count := 1, local_min := 0, local_max := 0, average := 0, alpha := 1/2 }

/-- A concrete seeded integer-mode state used to instantiate theorems. -/
def siZero : IntSeriesEwmaFilter :=
  { sample_count := 1, local_min := 0, local_max := 0, average := 0
    alpha_numerator := 1, alpha_denominator := 100 }

/-- A concrete seeded float-mode state with a nondegenerate envelope. -/
def sfEnv : FloatSeriesEwmaFilter :=
  { sample_count := 1, local_min := 0, local_max := 10, average := 4, alpha := 1/2 }

/-- A concrete seeded integer-mode state with a nondegenerate envelope. -/
def siEnv : IntSeriesEwmaFilter :=
  { sample_count := 1, local_min := 0, local_max := 10, average := 4
    alpha_numerator := 1, alpha_denominator := 2 }

/-- A seeded integer-mode state whose `alpha_denominator` is zero: the result
of constructing with denominator `0` and pushing one (seeding) sample. -/
def sDenZero : IntSeriesEwmaFilter := ((IntSeriesEwmaFilter.new 1 0).push_sample 7).2

/-! ### Field-level characterization of `push_sample` (float mode) -/

theorem float_push_fst (s : FloatSeriesEwmaFilter) (v : ℚ) :
    (s.push_sample v).1 = (s.push_sample v).2.average := by
  unfold FloatSeriesEwmaFilter.push_sample; split <;> rfl

theorem float_push_count (s : FloatSeriesEwmaFilter) (v : ℚ) :
    (s.push_sample v).2.sample_count = s.sample_count + 1 := by
  unfold FloatSeriesEwmaFilter.push_sample; split <;> rfl

theorem float_push_alpha (s : FloatSeriesEwmaFilter) (v : ℚ) :
    (s.push_sample v).2.alpha = s.alpha := by
  unfold FloatSeriesEwmaFilter.push_sample; split <;> rfl

theorem float_push_seed (s : FloatSeriesEwmaFilter) (v : ℚ) (h : s.sample_count = 0) :
    (s.push_sample v).2 = { s with
      local_min := v
      local_max := v
      average := v
      sample_count := s.sample_count + 1 } := by
  unfold FloatSeriesEwmaFilter.push_sample; rw [if_pos h]

theorem float_push_average (s : FloatSeriesEwmaFilter) (v : ℚ) (h : s.sample_count ≠ 0) :
    (s.push_sample v).2.average = s.average + s.alpha * (v - s.average) := by
  unfold FloatSeriesEwmaFilter.push_sample; rw [if_neg h]

theorem float_push_local_max (s : FloatSeriesEwmaFilter) (v : ℚ) (h : s.sample_count ≠ 0) :
    (s.push_sample v).2.local_max =
      if v > s.local_max then v
      else if v > s.average + s.alpha * (v - s.average) then
        s.local_max + s.alpha * (v - s.local_max)
      else s.local_max := by
  unfold FloatSeriesEwmaFilter.push_sample; rw [if_neg h]

theorem float_push_local_min (s : FloatSeriesEwmaFilter) (v : ℚ) (h : s.sample_count ≠ 0) :
    (s.push_sample v).2.local_min =
      if v < s.local_min then v
      else if v < s.average + s.alpha * (v - s.average) then
        s.local_min + s.alpha * (v - s.local_min)
      else s.local_min := by
  unfold FloatSeriesEwmaFilter.push_sample; rw [if_neg h]

/-! ### Field-level characterization of `push_sample` (integer mode, `ℤ`) -/

theorem int_push_fst (s : IntSeriesEwmaFilter) (v : ℤ) :
    (s.push_sample v).1 = (s.push_sample v).2.average := by
  unfold IntSeriesEwmaFilter.push_sample; split <;> rfl

theorem int_push_count (s : IntSeriesEwmaFilter) (v : ℤ) :
    (s.push_sample v).2.sample_count = s.sample_count + 1 := by
  unfold IntSeriesEwmaFilter.push_sample; split <;> rfl

theorem int_push_params (s : IntSeriesEwmaFilter) (v : ℤ) :
    (s.push_sample v).2.alpha_numerator = s.alpha_numerator ∧
    (s.push_sample v).2.alpha_denominator = s.alpha_denominator := by
  unfold IntSeriesEwmaFilter.push_sample; split <;> exact ⟨rfl, rfl⟩

theorem int_push_seed (s : IntSeriesEwmaFilter) (v : ℤ) (h : s.sample_count = 0) :
    (s.push_sample v).2 = { s with
      local_min := v
      local_max := v
      average := v
      sample_count := s.sample_count + 1 } := by
  unfold IntSeriesEwmaFilter.push_sample; rw [if_pos h]

theorem int_push_average (s : IntSeriesEwmaFilter) (v : ℤ) (h : s.sample_count ≠ 0) :
    (s.push_sample v).2.average =
      s.average + (s.alpha_numerator * (v - s.average)).tdiv s.alpha_denominator := by
  unfold IntSeriesEwmaFilter.push_sample; rw [if_neg h]

theorem int_push_local_max (s : IntSeriesEwmaFilter) (v : ℤ) (h : s.sample_count ≠ 0) :
    (s.push_sample v).2.local_max =
      if v > s.local_max then v
      else if v > s.average + (s.alpha_numerator * (v - s.average)).tdiv s.alpha_denominator then
        s.local_max + (s.alpha_numerator * (v - s.local_max)).tdiv s.alpha_denominator
      else s.local_max := by
  unfold IntSeriesEwmaFilter.push_sample; rw [if_neg h]

theorem int_push_local_min (s : IntSeriesEwmaFilter) (v : ℤ) (h : s.sample_count ≠ 0) :
    (s.push_sample v).2.local_min =
      if v < s.local_min then v
      else if v < s.average + (s.alpha_numerator * (v - s.average)).tdiv s.alpha_denominator then
        s.local_min + (s.alpha_numerator * (v - s.local_min)).tdiv s.alpha_denominator
      else s.local_min := by
  unfold IntSeriesEwmaFilter.push_sample; rw [if_neg h]

/-! ### Claims C2, C3, C4, C5, C8 -/

/-- C2: on a seeded state with average `a` and weight `w`, `push_sample v`
sets and returns the new average `a + w*(v - a)`; in integer mode the
multiplication happens before the truncating division:
`a + (numerator*(v - a)).tdiv denominator`. -/
theorem C2_steady_state_average (sf : FloatSeriesEwmaFilter) (si : IntSeriesEwmaFilter)
    (vf : ℚ) (vi : ℤ) (hf : sf.sample_count ≠ 0) (hi : si.sample_count ≠ 0) :
    (sf.push_sample vf).1 = sf.average + sf.alpha * (vf - sf.average) ∧
    (sf.push_sample vf).2.average = sf.average + sf.alpha * (vf - sf.average) ∧
    (si.push_sample vi).1 =
      si.average + (si.alpha_numerator * (vi - si.average)).tdiv si.alpha_denominator ∧
    (si.push_sample vi).2.average =
      si.average + (si.alpha_numerator * (vi - si.average)).tdiv si.alpha_denominator :=
  ⟨(float_push_fst sf vf).trans (float_push_average sf vf hf),
   float_push_average sf vf hf,
   (int_push_fst si vi).trans (int_push_average si vi hi),
   int_push_average si vi hi⟩

/-- Witness for C2 at concrete states and samples. -/
theorem C2_steady_state_average_witness :
    (sfZero.push_sample 4).1 = sfZero.average + sfZero.alpha * (4 - sfZero.average) ∧
    (sfZero.push_sample 4).2.average = sfZero.average + sfZero.alpha * (4 - sfZero.average) ∧
    (siZero.push_sample 7).1 = siZero.average +
      (siZero.alpha_numerator * (7 - siZero.average)).tdiv siZero.alpha_denominator ∧
    (siZero.push_sample 7).2.average = siZero.average +
      (siZero.alpha_numerator * (7 - siZero.average)).tdiv siZero.alpha_denominator :=
  C2_steady_state_average sfZero siZero 4 7 (by decide) (by decide)

/-- C3: the first `push_sample v` on a fresh instance of either mode sets
`average`, `local_min`, `local_max` all to `v`, returns `v`, and afterwards
`ewma_average()` returns `v` and `local_range()` is the degenerate interval
`(v, v)`. -/
theorem C3_seeding (sf : FloatSeriesEwmaFilter) (si : IntSeriesEwmaFilter)
    (vf : ℚ) (vi : ℤ) (hf : sf.sample_count = 0) (hi : si.sample_count = 0) :
    (sf.push_sample vf).1 = vf ∧
    (sf.push_sample vf).2.average = vf ∧
    (sf.push_sample vf).2.local_min = vf ∧
    (sf.push_sample vf).2.local_max = vf ∧
    ((sf.push_sample vf).2.ewma_average).1 = vf ∧
    ((sf.push_sample vf).2.local_range).1 = (vf, vf) ∧
    (si.push_sample vi).1 = vi ∧
    (si.push_sample vi).2.average = vi ∧
    (si.push_sample vi).2.local_min = vi ∧
    (si.push_sample vi).2.local_max = vi ∧
    ((si.push_sample vi).2.ewma_average).1 = vi ∧
    ((si.push_sample vi).2.local_range).1 = (vi, vi) := by
  rw [float_push_fst, int_push_fst, float_push_seed sf vf hf, int_push_seed si vi hi]
  exact ⟨rfl, rfl, rfl, rfl, rfl, rfl, rfl, rfl, rfl, rfl, rfl, rfl⟩

/-- Witness for C3: fresh filters seeded with `5` and `7`. -/
theorem C3_seeding_witness :
    ((FloatSeriesEwmaFilter.new (1/100)).push_sample 5).1 = 5 ∧
    ((FloatSeriesEwmaFilter.new (1/100)).push_sample 5).2.average = 5 ∧
    ((FloatSeriesEwmaFilter.new (1/100)).push_sample 5).2.local_min = 5 ∧
    ((FloatSeriesEwmaFilter.new (1/100)).push_sample 5).2.local_max = 5 ∧
    (((FloatSeriesEwmaFilter.new (1/100)).push_sample 5).2.ewma_average).1 = 5 ∧
    (((FloatSeriesEwmaFilter.new (1/100)).push_sample 5).2.local_range).1 = (5, 5) ∧
    ((IntSeriesEwmaFilter.new 1 100).push_sample 7).1 = 7 ∧
    ((IntSeriesEwmaFilter.new 1 100).push_sample 7).2.average = 7 ∧
    ((IntSeriesEwmaFilter.new 1 100).push_sample 7).2.local_min = 7 ∧
    ((IntSeriesEwmaFilter.new 1 100).push_sample 7).2.local_max = 7 ∧
    (((IntSeriesEwmaFilter.new 1 100).push_sample 7).2.ewma_average).1 = 7 ∧
    (((IntSeriesEwmaFilter.new 1 100).push_sample 7).2.local_range).1 = (7, 7) :=
  C3_seeding _ _ 5 7 rfl rfl

/-- C4: on a seeded state, the extrema update follows the snap / fade /
unchanged priority order, and the fade condition compares the sample against
the updated average `a' = a + w*(v - a)` computed in step 1. -/
theorem C4_fade_compares_updated_average (sf : FloatSeriesEwmaFilter)
    (si : IntSeriesEwmaFilter) (vf : ℚ) (vi : ℤ)
    (hf : sf.sample_count ≠ 0) (hi : si.sample_count ≠ 0) :
    ((sf.push_sample vf).2.local_max =
      if vf > sf.local_max then vf
      else if vf > sf.average + sf.alpha * (vf - sf.average) then
        sf.local_max + sf.alpha * (vf - sf.local_max)
      else sf.local_max) ∧
    ((sf.push_sample vf).2.local_min =
      if vf < sf.local_min then vf
      else if vf < sf.average + sf.alpha * (vf - sf.average) then
        sf.local_min + sf.alpha * (vf - sf.local_min)
      else sf.local_min) ∧
    ((si.push_sample vi).2.local_max =
      if vi > si.local_max then vi
      else if vi > si.average +
          (si.alpha_numerator * (vi - si.average)).tdiv si.alpha_denominator then
        si.local_max + (si.alpha_numerator * (vi - si.local_max)).tdiv si.alpha_denominator
      else si.local_max) ∧
    ((si.push_sample vi).2.local_min =
      if vi < si.local_min then vi
      else if vi < si.average +
          (si.alpha_numerator * (vi - si.average)).tdiv si.alpha_denominator then
        si.local_min + (si.alpha_numerator * (vi - si.local_min)).tdiv si.alpha_denominator
      else si.local_min) :=
  ⟨float_push_local_max sf vf hf, float_push_local_min sf vf hf,
   int_push_local_max si vi hi, int_push_local_min si vi hi⟩

/-- Witness for C4 at concrete seeded states. -/
theorem C4_fade_compares_updated_average_witness :
    ((sfEnv.push_sample 6).2.local_max =
      if (6:ℚ) > sfEnv.local_max then 6
      else if (6:ℚ) > sfEnv.average + sfEnv.alpha * (6 - sfEnv.average) then
        sfEnv.local_max + sfEnv.alpha * (6 - sfEnv.local_max)
      else sfEnv.local_max) ∧
    ((sfEnv.push_sample 6).2.local_min =
      if (6:ℚ) < sfEnv.local_min then 6
      else if (6:ℚ) < sfEnv.average + sfEnv.alpha * (6 - sfEnv.average) then
        sfEnv.local_min + sfEnv.alpha * (6 - sfEnv.local_min)
      else sfEnv.local_min) ∧
    ((siEnv.push_sample 6).2.local_max =
      if (6:ℤ) > siEnv.local_max then 6
      else if (6:ℤ) > siEnv.average +
          (siEnv.alpha_numerator * (6 - siEnv.average)).tdiv siEnv.alpha_denominator then
        siEnv.local_max + (siEnv.alpha_numerator * (6 - siEnv.local_max)).tdiv siEnv.alpha_denominator
      else siEnv.local_max) ∧
    ((siEnv.push_sample 6).2.local_min =
      if (6:ℤ) < siEnv.local_min then 6
      else if (6:ℤ) < siEnv.average +
          (siEnv.alpha_numerator * (6 - siEnv.average)).tdiv siEnv.alpha_denominator then
        siEnv.local_min + (siEnv.alpha_numerator * (6 - siEnv.local_min)).tdiv siEnv.alpha_denominator
      else siEnv.local_min) :=
  C4_fade_compares_updated_average sfEnv siEnv 6 6 (by decide) (by decide)

/-- C5: on a seeded state, a sample strictly above `local_max` snaps
`local_max` to exactly that sample (no fading); mirror for a sample strictly
below `local_min`; in both modes. -/
theorem C5_snap_on_new_extreme (sf : FloatSeriesEwmaFilter) (vhi vlo : ℚ)
    (si : IntSeriesEwmaFilter) (whi wlo : ℤ)
    (hf : sf.sample_count ≠ 0) (h1 : vhi > sf.local_max) (h2 : vlo < sf.local_min)
    (hi : si.sample_count ≠ 0) (h3 : whi > si.local_max) (h4 : wlo < si.local_min) :
    (sf.push_sample vhi).2.local_max = vhi ∧
    (sf.push_sample vlo).2.local_min = vlo ∧
    (si.push_sample whi).2.local_max = whi ∧
    (si.push_sample wlo).2.local_min = wlo := by
  rw [float_push_local_max sf vhi hf, float_push_local_min sf vlo hf,
    int_push_local_max si whi hi, int_push_local_min si wlo hi]
  exact ⟨if_pos h1, if_pos h2, if_pos h3, if_pos h4⟩

/-- Witness for C5: samples `20` and `-20` against extrema `10` and `0`. -/
theorem C5_snap_on_new_extreme_witness :
    (sfEnv.push_sample 20).2.local_max = 20 ∧
    (sfEnv.push_sample (-20)).2.local_min = -20 ∧
    (siEnv.push_sample 20).2.local_max = 20 ∧
    (siEnv.push_sample (-20)).2.local_min = -20 :=
  C5_snap_on_new_extreme sfEnv 20 (-20) siEnv 20 (-20)
    (by decide) (by decide) (by decide) (by decide) (by decide) (by decide)

/-- C8: `ewma_average` and `local_range` are `&self` reads in both modes:
they leave the state unchanged, so repeated calls without an intervening
`push_sample` return identical values. -/
theorem C8_reads_do_not_mutate (sf : FloatSeriesEwmaFilter) (si : IntSeriesEwmaFilter) :
    (sf.ewma_average).2 = sf ∧
    (sf.local_range).2 = sf ∧
    (sf.ewma_average).2.ewma_average = sf.ewma_average ∧
    (sf.local_range).2.local_range = sf.local_range ∧
    (si.ewma_average).2 = si ∧
    (si.local_range).2 = si ∧
    (si.ewma_average).2.ewma_average = si.ewma_average ∧
    (si.local_range).2.local_range = si.local_range :=
  ⟨rfl, rfl, rfl, rfl, rfl, rfl, rfl, rfl⟩

/-! ### Claims C6, C9, C10 -/

theorem pushRampFrom_add (s : IntSeriesEwmaFilterU32) (a m k : Nat) :
    IntSeriesEwmaFilterU32.pushRampFrom s a (m + k) =
      IntSeriesEwmaFilterU32.pushRampFrom (IntSeriesEwmaFilterU32.pushRampFrom s a m) (a + m) k := by
  induction k with
  | zero => rfl
  | succ k ih =>
    show ((IntSeriesEwmaFilterU32.pushRampFrom s a (m + k)).push_sample (a + (m + k))).2 = _
    rw [ih, ← Nat.add_assoc]
    rfl

set_option maxRecDepth 100000 in
theorem ramp_chunk1 :
    IntSeriesEwmaFilterU32.pushRampFrom (IntSeriesEwmaFilterU32.new 1 100) 0 250 =
      ⟨250, 0, 249, 150, 1, 100⟩ := by rfl

set_option maxRecDepth 100000 in
theorem ramp_chunk2 :
    IntSeriesEwmaFilterU32.pushRampFrom ⟨250, 0, 249, 150, 1, 100⟩ 250 250 =
      ⟨500, 0, 499, 400, 1, 100⟩ := by rfl

set_option maxRecDepth 100000 in
theorem ramp_chunk3 :
    IntSeriesEwmaFilterU32.pushRampFrom ⟨500, 0, 499, 400, 1, 100⟩ 500 250 =
      ⟨750, 0, 749, 650, 1, 100⟩ := by rfl

set_option maxRecDepth 100000 in
theorem ramp_chunk4 :
    IntSeriesEwmaFilterU32.pushRampFrom ⟨750, 0, 749, 650, 1, 100⟩ 750 250 =
      ⟨1000, 0, 999, 900, 1, 100⟩ := by rfl

theorem ramp_total :
    IntSeriesEwmaFilterU32.pushRamp (IntSeriesEwmaFilterU32.new 1 100) 1000 =
      ⟨1000, 0, 999, 900, 1, 100⟩ := by
  show IntSeriesEwmaFilterU32.pushRampFrom (IntSeriesEwmaFilterU32.new 1 100) 0 1000 = _
  calc IntSeriesEwmaFilterU32.pushRampFrom (IntSeriesEwmaFilterU32.new 1 100) 0 1000
      = IntSeriesEwmaFilterU32.pushRampFrom ⟨250, 0, 249, 150, 1, 100⟩ 250 750 := by
        rw [← ramp_chunk1]; exact pushRampFrom_add _ 0 250 750
    _ = IntSeriesEwmaFilterU32.pushRampFrom ⟨500, 0, 499, 400, 1, 100⟩ 500 500 := by
        rw [← ramp_chunk2]; exact pushRampFrom_add _ 250 250 500
    _ = IntSeriesEwmaFilterU32.pushRampFrom ⟨750, 0, 749, 650, 1, 100⟩ 750 250 := by
        rw [← ramp_chunk3]; exact pushRampFrom_add _ 500 250 250
    _ = ⟨1000, 0, 999, 900, 1, 100⟩ := ramp_chunk4

/-- C6: the `u32` integer-mode filter with `numerator = 1`,
`denominator = 100`, after pushing `0, 1, ..., 999` in order, has
`ewma_average() = 900` exactly and `local_range() = (0, 999)`. -/
theorem C6_integer_ramp_exact :
    ((IntSeriesEwmaFilterU32.pushRamp (IntSeriesEwmaFilterU32.new 1 100) 1000).ewma_average).1
      = 900 ∧
    ((IntSeriesEwmaFilterU32.pushRamp (IntSeriesEwmaFilterU32.new 1 100) 1000).local_range).1
      = (0, 999) := by
  rw [ramp_total]
  exact ⟨rfl, rfl⟩

/-- C9: at the unsigned (`u32`) instantiation there is a seeded state and an
input below the current average for which `new_value - average` wraps modulo
2^32: seeding with `100` and then pushing `0` yields the returned average
`42949771`, which is not between the previous average `100` and the sample
`0`. -/
theorem C9_unsigned_wraparound :
    (((IntSeriesEwmaFilterU32.new 1 100).push_sample 100).2).average = 100 ∧
    ((((IntSeriesEwmaFilterU32.new 1 100).push_sample 100).2).push_sample 0).1 = 42949771 ∧
    ¬ ((((IntSeriesEwmaFilterU32.new 1 100).push_sample 100).2).push_sample 0).1 ≤ 100 :=
  ⟨rfl, rfl, by decide⟩

/-- C10: constructing an integer-mode filter with `alpha_denominator = 0`
succeeds, and so does the first (seeding) `push_sample`, which performs no
division; a division by zero occurs exactly on a seeded push: any
`push_sample` on a seeded state with zero denominator faults, while any push
with a nonzero denominator succeeds. -/
theorem C10_div_by_zero_on_seeded_push (n v w u : ℤ) (s t : IntSeriesEwmaFilter)
    (hs0 : s.sample_count ≠ 0) (hsd : s.alpha_denominator = 0)
    (htd : t.alpha_denominator ≠ 0) :
    (IntSeriesEwmaFilter.new n 0).alpha_denominator = 0 ∧
    (IntSeriesEwmaFilter.new n 0).push_sample_checked v =
      some ((IntSeriesEwmaFilter.new n 0).push_sample v) ∧
    s.push_sample_checked w = none ∧
    (t.push_sample_checked u).isSome = true := by
  refine ⟨rfl, rfl, ?_, ?_⟩
  · unfold IntSeriesEwmaFilter.push_sample_checked
    rw [if_neg hs0, if_pos hsd]
  · unfold IntSeriesEwmaFilter.push_sample_checked
    by_cases h : t.sample_count = 0
    · rw [if_pos h]; rfl
    · rw [if_neg h, if_neg htd]; rfl

/-- Witness for C10: denominator `0`, seeding push `5`, then a faulting push
`3`; and a successful push `2` on a seeded state with denominator `100`. -/
theorem C10_div_by_zero_on_seeded_push_witness :
    (IntSeriesEwmaFilter.new 1 0).alpha_denominator = 0 ∧
    (IntSeriesEwmaFilter.new 1 0).push_sample_checked 5 =
      some ((IntSeriesEwmaFilter.new 1 0).push_sample 5) ∧
    sDenZero.push_sample_checked 3 = none ∧
    (siZero.push_sample_checked 2).isSome = true :=
  C10_div_by_zero_on_seeded_push 1 5 3 2 sDenZero siZero (by decide) (by decide) (by decide)

/-! ### The bounding invariant (claim C1) -/

theorem float_bounded_def (s : FloatSeriesEwmaFilter) :
    s.bounded ↔ s.local_min ≤ s.average ∧ s.average ≤ s.local_max := Iff.rfl

theorem int_bounded_def (s : IntSeriesEwmaFilter) :
    s.bounded ↔ s.local_min ≤ s.average ∧ s.average ≤ s.local_max := Iff.rfl

/-- With a weight ratio `0 < num < den`, the truncating weighted increment of
a nonnegative difference `x` lies between `0` and `x`. -/
theorem tdiv_blend_nonneg (num den x : ℤ) (hn : 0 < num) (hd : num < den) (hx : 0 ≤ x) :
    0 ≤ (num * x).tdiv den ∧ (num * x).tdiv den ≤ x := by
  have hden : 0 < den := hn.trans hd
  have hnx : 0 ≤ num * x := mul_nonneg hn.le hx
  rw [Int.tdiv_eq_ediv hnx hden.le]
  refine ⟨Int.ediv_nonneg hnx hden.le, ?_⟩
  have h1 : num * x ≤ den * x := mul_le_mul_of_nonneg_right hd.le hx
  have h2 : num * x / den ≤ den * x / den := Int.ediv_le_ediv hden h1
  rwa [Int.mul_ediv_cancel_left x (ne_of_gt hden)] at h2

/-- With a weight ratio `0 < num < den`, the truncating weighted increment of
a nonpositive difference `x` lies between `x` and `0`. -/
theorem tdiv_blend_nonpos (num den x : ℤ) (hn : 0 < num) (hd : num < den) (hx : x ≤ 0) :
    x ≤ (num * x).tdiv den ∧ (num * x).tdiv den ≤ 0 := by
  have h := tdiv_blend_nonneg num den (-x) hn hd (by omega)
  have e : (num * (-x)).tdiv den = -((num * x).tdiv den) := by
    rw [mul_neg, Int.neg_tdiv]
  rw [e] at h
  omega

/-- Integer-mode blend step: `a + (num*(v - a)).tdiv den` stays between `a`
and `v`. -/
theorem int_blend_between (num den a v : ℤ) (hn : 0 < num) (hd : num < den) :
    min a v ≤ a + (num * (v - a)).tdiv den ∧ a + (num * (v - a)).tdiv den ≤ max a v := by
  rcases le_total a v with h | h
  · have hb := tdiv_blend_nonneg num den (v - a) hn hd (by omega)
    constructor
    · exact (min_le_left a v).trans (by omega)
    · exact le_trans (by omega) (le_max_right a v)
  · have hb := tdiv_blend_nonpos num den (v - a) hn hd (by omega)
    constructor
    · exact (min_le_right a v).trans (by omega)
    · exact le_trans (by omega) (le_max_left a v)

/-- Float-mode blend step: `a + α*(v - a)` stays between `a` and `v`. -/
theorem rat_blend_between (α a v : ℚ) (h0 : 0 ≤ α) (h1 : α ≤ 1) :
    min a v ≤ a + α * (v - a) ∧ a + α * (v - a) ≤ max a v := by
  rcases le_total a v with h | h
  · constructor
    · exact (min_le_left a v).trans (by nlinarith)
    · exact le_trans (by nlinarith) (le_max_right a v)
  · constructor
    · exact (min_le_right a v).trans (by nlinarith)
    · exact le_trans (by nlinarith) (le_max_left a v)

/-- One float-mode push preserves (or, from the unseeded state, establishes)
the bounding invariant. -/
theorem float_push_bounded (s : FloatSeriesEwmaFilter) (v : ℚ)
    (h0 : 0 ≤ s.alpha) (h1 : s.alpha ≤ 1)
    (hb : s.sample_count = 0 ∨ s.bounded) :
    (s.push_sample v).2.bounded := by
  by_cases hz : s.sample_count = 0
  · rw [float_push_seed s v hz]
    exact ⟨le_rfl, le_rfl⟩
  obtain ⟨hmin, hmax⟩ := (float_bounded_def s).mp (hb.resolve_left hz)
  have hblend := rat_blend_between s.alpha s.average v h0 h1
  rw [float_bounded_def, float_push_average s v hz,
    float_push_local_min s v hz, float_push_local_max s v hz]
  constructor
  · by_cases hc1 : v < s.local_min
    · rw [if_pos hc1]
      have hva : v ≤ s.average := le_trans hc1.le hmin
      calc v = min s.average v := (min_eq_right hva).symm
        _ ≤ _ := hblend.1
    · rw [if_neg hc1]
      have hv : s.local_min ≤ v := not_lt.mp hc1
      by_cases hc2 : v < s.average + s.alpha * (v - s.average)
      · rw [if_pos hc2]
        have hbl2 := rat_blend_between s.alpha s.local_min v h0 h1
        calc s.local_min + s.alpha * (v - s.local_min)
            ≤ max s.local_min v := hbl2.2
          _ = v := max_eq_right hv
          _ ≤ _ := hc2.le
      · rw [if_neg hc2]
        calc s.local_min ≤ min s.average v := le_min hmin hv
          _ ≤ _ := hblend.1
  · by_cases hc1 : v > s.local_max
    · rw [if_pos hc1]
      have hva : s.average ≤ v := le_trans hmax hc1.le
      calc s.average + s.alpha * (v - s.average)
          ≤ max s.average v := hblend.2
        _ = v := max_eq_right hva
    · rw [if_neg hc1]
      have hv : v ≤ s.local_max := not_lt.mp hc1
      by_cases hc2 : v > s.average + s.alpha * (v - s.average)
      · rw [if_pos hc2]
        have hbl2 := rat_blend_between s.alpha s.local_max v h0 h1
        calc s.average + s.alpha * (v - s.average) ≤ v := hc2.le
          _ = min s.local_max v := (min_eq_right hv).symm
          _ ≤ _ := hbl2.1
      · rw [if_neg hc2]
        calc s.average + s.alpha * (v - s.average)
            ≤ max s.average v := hblend.2
          _ ≤ s.local_max := max_le hmax hv

/-- One integer-mode push preserves (or, from the unseeded state,
establishes) the bounding invariant. -/
theorem int_push_bounded (s : IntSeriesEwmaFilter) (v : ℤ)
    (hn : 0 < s.alpha_numerator) (hd : s.alpha_numerator < s.alpha_denominator)
    (hb : s.sample_count = 0 ∨ s.bounded) :
    (s.push_sample v).2.bounded := by
  by_cases hz : s.sample_count = 0
  · rw [int_push_seed s v hz]
    exact ⟨le_rfl, le_rfl⟩
  obtain ⟨hmin, hmax⟩ := (int_bounded_def s).mp (hb.resolve_left hz)
  have hblend := int_blend_between s.alpha_numerator s.alpha_denominator s.average v hn hd
  rw [int_bounded_def, int_push_average s v hz,
    int_push_local_min s v hz, int_push_local_max s v hz]
  constructor
  · by_cases hc1 : v < s.local_min
    · rw [if_pos hc1]
      have hva : v ≤ s.average := le_trans hc1.le hmin
      calc v = min s.average v := (min_eq_right hva).symm
        _ ≤ _ := hblend.1
    · rw [if_neg hc1]
      have hv : s.local_min ≤ v := not_lt.mp hc1
      by_cases hc2 : v < s.average +
          (s.alpha_numerator * (v - s.average)).tdiv s.alpha_denominator
      · rw [if_pos hc2]
        have hbl2 := int_blend_between s.alpha_numerator s.alpha_denominator s.local_min v hn hd
        calc s.local_min + (s.alpha_numerator * (v - s.local_min)).tdiv s.alpha_denominator
            ≤ max s.local_min v := hbl2.2
          _ = v := max_eq_right hv
          _ ≤ _ := hc2.le
      · rw [if_neg hc2]
        calc s.local_min ≤ min s.average v := le_min hmin hv
          _ ≤ _ := hblend.1
  · by_cases hc1 : v > s.local_max
    · rw [if_pos hc1]
      have hva : s.average ≤ v := le_trans hmax hc1.le
      calc s.average + (s.alpha_numerator * (v - s.average)).tdiv s.alpha_denominator
          ≤ max s.average v := hblend.2
        _ = v := max_eq_right hva
    · rw [if_neg hc1]
      have hv : v ≤ s.local_max := not_lt.mp hc1
      by_cases hc2 : v > s.average +
          (s.alpha_numerator * (v - s.average)).tdiv s.alpha_denominator
      · rw [if_pos hc2]
        have hbl2 := int_blend_between s.alpha_numerator s.alpha_denominator s.local_max v hn hd
        calc s.average + (s.alpha_numerator * (v - s.average)).tdiv s.alpha_denominator
            ≤ v := hc2.le
          _ = min s.local_max v := (min_eq_right hv).symm
          _ ≤ _ := hbl2.1
      · rw [if_neg hc2]
        calc s.average + (s.alpha_numerator * (v - s.average)).tdiv s.alpha_denominator
            ≤ max s.average v := hblend.2
          _ ≤ s.local_max := max_le hmax hv

/-- Pushing any list of samples preserves the float-mode bounding invariant. -/
theorem float_pushList_bounded (vs : List ℚ) (s : FloatSeriesEwmaFilter)
    (h0 : 0 ≤ s.alpha) (h1 : s.alpha ≤ 1) (hb : s.bounded) :
    (FloatSeriesEwmaFilter.pushList s vs).bounded := by
  induction vs generalizing s with
  | nil => exact hb
  | cons v vs ih =>
    show (FloatSeriesEwmaFilter.pushList (s.push_sample v).2 vs).bounded
    exact ih _ (by rw [float_push_alpha]; exact h0) (by rw [float_push_alpha]; exact h1)
      (float_push_bounded s v h0 h1 (Or.inr hb))

/-- Pushing any list of samples preserves the integer-mode bounding
invariant. -/
theorem int_pushList_bounded (ws : List ℤ) (s : IntSeriesEwmaFilter)
    (hn : 0 < s.alpha_numerator) (hd : s.alpha_numerator < s.alpha_denominator)
    (hb : s.bounded) :
    (IntSeriesEwmaFilter.pushList s ws).bounded := by
  induction ws generalizing s with
  | nil => exact hb
  | cons w ws ih =>
    show (IntSeriesEwmaFilter.pushList (s.push_sample w).2 ws).bounded
    refine ih _ ?_ ?_ (int_push_bounded s w hn hd (Or.inr hb))
    · rw [(int_push_params s w).1]; exact hn
    · rw [(int_push_params s w).1, (int_push_params s w).2]; exact hd

/-- C1: in both modes, with a weight in `(0, 1)` (integer mode:
`0 < numerator < denominator`), after the first pushed sample every
subsequently reachable state satisfies `local_min ≤ average ≤ local_max`. -/
theorem C1_bounding (α : ℚ) (num den : ℤ) (v : ℚ) (w : ℤ) (vs : List ℚ) (ws : List ℤ)
    (hα0 : 0 < α) (hα1 : α < 1) (hn : 0 < num) (hnd : num < den) :
    (FloatSeriesEwmaFilter.pushList
      ((FloatSeriesEwmaFilter.new α).push_sample v).2 vs).bounded ∧
    (IntSeriesEwmaFilter.pushList
      ((IntSeriesEwmaFilter.new num den).push_sample w).2 ws).bounded := by
  constructor
  · refine float_pushList_bounded vs _ ?_ ?_ ?_
    · rw [float_push_alpha]; exact hα0.le
    · rw [float_push_alpha]; exact hα1.le
    · exact float_push_bounded _ v hα0.le hα1.le (Or.inl rfl)
  · refine int_pushList_bounded ws _ ?_ ?_ ?_
    · rw [(int_push_params _ w).1]; exact hn
    · rw [(int_push_params _ w).1, (int_push_params _ w).2]; exact hnd
    · exact int_push_bounded _ w hn hnd (Or.inl rfl)

/-- Witness for C1: weight `1/2`, seed `3`, then samples `10` and `-4`. -/
theorem C1_bounding_witness :
    (FloatSeriesEwmaFilter.pushList
      ((FloatSeriesEwmaFilter.new (1/2)).push_sample 3).2 [10, -4]).bounded ∧
    (IntSeriesEwmaFilter.pushList
      ((IntSeriesEwmaFilter.new 1 2).push_sample 3).2 [10, -4]).bounded :=
  C1_bounding (1/2) 1 2 3 3 [10, -4] [10, -4]
    (by norm_num) (by norm_num) (by decide) (by decide)

/-! ### Constant-push dynamics, float mode (claim C7) -/

theorem float_pushConst_count (s : FloatSeriesEwmaFilter) (k : ℚ) (n : Nat) :
    (FloatSeriesEwmaFilter.pushConst s k n).sample_count = s.sample_count + n := by
  induction n with
  | zero => rfl
  | succ n ih =>
    show ((FloatSeriesEwmaFilter.pushConst s k n).push_sample k).2.sample_count = _
    rw [float_push_count, ih]
    omega

theorem float_pushConst_count_ne (s : FloatSeriesEwmaFilter) (k : ℚ) (n : Nat)
    (h : s.sample_count ≠ 0) :
    (FloatSeriesEwmaFilter.pushConst s k n).sample_count ≠ 0 := by
  rw [float_pushConst_count]; omega

theorem float_pushConst_alpha (s : FloatSeriesEwmaFilter) (k : ℚ) (n : Nat) :
    (FloatSeriesEwmaFilter.pushConst s k n).alpha = s.alpha := by
  induction n with
  | zero => rfl
  | succ n ih =>
    show ((FloatSeriesEwmaFilter.pushConst s k n).push_sample k).2.alpha = _
    rw [float_push_alpha, ih]

/-- One seeded push of `k` contracts the distance from the average to `k` by
the factor `1 - alpha`. -/
theorem float_avg_step (s : FloatSeriesEwmaFilter) (k : ℚ) (h : s.sample_count ≠ 0) :
    (s.push_sample k).2.average - k = (1 - s.alpha) * (s.average - k) := by
  rw [float_push_average s k h]; ring

/-- Closed form of the average under constant pushes. -/
theorem float_pushConst_avg (s : FloatSeriesEwmaFilter) (k : ℚ) (h : s.sample_count ≠ 0)
    (n : Nat) :
    (FloatSeriesEwmaFilter.pushConst s k n).average - k =
      (1 - s.alpha) ^ n * (s.average - k) := by
  induction n with
  | zero => show s.average - k = _; rw [pow_zero, one_mul]
  | succ n ih =>
    show ((FloatSeriesEwmaFilter.pushConst s k n).push_sample k).2.average - k = _
    rw [float_avg_step _ k (float_pushConst_count_ne s k n h), float_pushConst_alpha, ih]
    ring

/-- If the average starts strictly below `k`, it stays strictly below `k`
under constant pushes of `k` (exact arithmetic). -/
theorem float_avg_stays_below (s : FloatSeriesEwmaFilter) (k : ℚ)
    (h : s.sample_count ≠ 0) (h1 : s.alpha < 1) (hlt : s.average < k) (n : Nat) :
    (FloatSeriesEwmaFilter.pushConst s k n).average < k := by
  have hcf := float_pushConst_avg s k h n
  have hp : 0 < (1 - s.alpha) ^ n := pow_pos (by linarith) n
  nlinarith

/-- If the average starts strictly above `k`, it stays strictly above `k`
under constant pushes of `k` (exact arithmetic). -/
theorem float_avg_stays_above (s : FloatSeriesEwmaFilter) (k : ℚ)
    (h : s.sample_count ≠ 0) (h1 : s.alpha < 1) (hgt : k < s.average) (n : Nat) :
    k < (FloatSeriesEwmaFilter.pushConst s k n).average := by
  have hcf := float_pushConst_avg s k h n
  have hp : 0 < (1 - s.alpha) ^ n := pow_pos (by linarith) n
  nlinarith

/-- When the (old) average is below `k`, a push of `k` contracts the distance
from `local_max` to `k` by at least the factor `1 - alpha` (snap gives `0`,
fade gives exactly the factor). -/
theorem float_push_max_fade (s : FloatSeriesEwmaFilter) (k : ℚ)
    (h : s.sample_count ≠ 0) (h1 : s.alpha < 1)
    (havg : s.average < k) :
    |(s.push_sample k).2.local_max - k| ≤ (1 - s.alpha) * |s.local_max - k| := by
  rw [float_push_local_max s k h]
  have ha' : s.average + s.alpha * (k - s.average) < k := by nlinarith
  by_cases hc : k > s.local_max
  · rw [if_pos hc, sub_self, abs_zero]
    exact mul_nonneg (by linarith) (abs_nonneg _)
  · rw [if_neg hc, if_pos ha']
    have e : s.local_max + s.alpha * (k - s.local_max) - k =
        (1 - s.alpha) * (s.local_max - k) := by ring
    rw [e, abs_mul, abs_of_nonneg (by linarith : (0:ℚ) ≤ 1 - s.alpha)]

/-- When the (old) average is above `k`, a push of `k` contracts the distance
from `local_min` to `k` by at least the factor `1 - alpha`. -/
theorem float_push_min_fade (s : FloatSeriesEwmaFilter) (k : ℚ)
    (h : s.sample_count ≠ 0) (h1 : s.alpha < 1)
    (havg : k < s.average) :
    |(s.push_sample k).2.local_min - k| ≤ (1 - s.alpha) * |s.local_min - k| := by
  rw [float_push_local_min s k h]
  have ha' : k < s.average + s.alpha * (k - s.average) := by nlinarith
  by_cases hc : k < s.local_min
  · rw [if_pos hc, sub_self, abs_zero]
    exact mul_nonneg (by linarith) (abs_nonneg _)
  · rw [if_neg hc, if_pos ha']
    have e : s.local_min + s.alpha * (k - s.local_min) - k =
        (1 - s.alpha) * (s.local_min - k) := by ring
    rw [e, abs_mul, abs_of_nonneg (by linarith : (0:ℚ) ≤ 1 - s.alpha)]

/-- A sequence whose distance to `l` contracts by a fixed factor `r < 1` at
every step converges to `l`. -/
theorem geom_convergesTo (f : ℕ → ℚ) (l r : ℚ) (h0 : 0 ≤ r) (h1 : r < 1)
    (hstep : ∀ n, |f (n + 1) - l| ≤ r * |f n - l|) : ConvergesTo f l := by
  have hbound : ∀ n, |f n - l| ≤ r ^ n * |f 0 - l| := by
    intro n
    induction n with
    | zero => rw [pow_zero, one_mul]
    | succ n ih =>
      calc |f (n + 1) - l| ≤ r * |f n - l| := hstep n
        _ ≤ r * (r ^ n * |f 0 - l|) := mul_le_mul_of_nonneg_left ih h0
        _ = r ^ (n + 1) * |f 0 - l| := by ring
  intro ε hε
  by_cases hzero : |f 0 - l| = 0
  · refine ⟨0, fun n _ => lt_of_le_of_lt ((hbound n).trans ?_) hε⟩
    rw [hzero, mul_zero]
  · have habs : 0 < |f 0 - l| := lt_of_le_of_ne (abs_nonneg _) (Ne.symm hzero)
    obtain ⟨N, hN⟩ := exists_pow_lt_of_lt_one (div_pos hε habs) h1
    refine ⟨N, fun n hn => ?_⟩
    calc |f n - l| ≤ r ^ n * |f 0 - l| := hbound n
      _ ≤ r ^ N * |f 0 - l| :=
        mul_le_mul_of_nonneg_right (pow_le_pow_of_le_one h0 h1.le hn) (abs_nonneg _)
      _ < ε / |f 0 - l| * |f 0 - l| := mul_lt_mul_of_pos_right hN habs
      _ = ε := div_mul_cancel₀ ε (ne_of_gt habs)

/-! ### Constant-push dynamics, integer mode (claim C7) -/

theorem int_pushConst_count (s : IntSeriesEwmaFilter) (k : ℤ) (n : Nat) :
    (IntSeriesEwmaFilter.pushConst s k n).sample_count = s.sample_count + n := by
  induction n with
  | zero => rfl
  | succ n ih =>
    show ((IntSeriesEwmaFilter.pushConst s k n).push_sample k).2.sample_count = _
    rw [int_push_count, ih]
    omega

theorem int_pushConst_count_ne (s : IntSeriesEwmaFilter) (k : ℤ) (n : Nat)
    (h : s.sample_count ≠ 0) :
    (IntSeriesEwmaFilter.pushConst s k n).sample_count ≠ 0 := by
  rw [int_pushConst_count]; omega

theorem int_pushConst_params (s : IntSeriesEwmaFilter) (k : ℤ) (n : Nat) :
    (IntSeriesEwmaFilter.pushConst s k n).alpha_numerator = s.alpha_numerator ∧
    (IntSeriesEwmaFilter.pushConst s k n).alpha_denominator = s.alpha_denominator := by
  induction n with
  | zero => exact ⟨rfl, rfl⟩
  | succ n ih =>
    refine ⟨?_, ?_⟩
    · show ((IntSeriesEwmaFilter.pushConst s k n).push_sample k).2.alpha_numerator = _
      rw [(int_push_params _ k).1, ih.1]
    · show ((IntSeriesEwmaFilter.pushConst s k n).push_sample k).2.alpha_denominator = _
      rw [(int_push_params _ k).2, ih.2]

theorem int_pushConst_shift (s : IntSeriesEwmaFilter) (k : ℤ) (n : Nat) :
    IntSeriesEwmaFilter.pushConst s k (n + 1) =
      IntSeriesEwmaFilter.pushConst (s.push_sample k).2 k n := by
  induction n with
  | zero => rfl
  | succ n ih =>
    show ((IntSeriesEwmaFilter.pushConst s k (n + 1)).push_sample k).2 = _
    rw [ih]
    rfl

/-- Once the truncating increment is zero, the integer-mode average never
moves again under constant pushes of `k`. -/
theorem int_stall (s : IntSeriesEwmaFilter) (k : ℤ) (h : s.sample_count ≠ 0)
    (hstall : (s.alpha_numerator * (k - s.average)).tdiv s.alpha_denominator = 0) :
    ∀ m, (IntSeriesEwmaFilter.pushConst s k m).average = s.average := by
  intro m
  induction m with
  | zero => rfl
  | succ m ih =>
    show ((IntSeriesEwmaFilter.pushConst s k m).push_sample k).2.average = _
    rw [int_push_average _ k (int_pushConst_count_ne s k m h),
      (int_pushConst_params s k m).1, (int_pushConst_params s k m).2, ih, hstall, add_zero]

/-- While the truncating increment is nonzero, one push of `k` strictly
decreases the distance from the average to `k`. -/
theorem int_step_decrease (s : IntSeriesEwmaFilter) (k : ℤ) (h : s.sample_count ≠ 0)
    (hn : 0 < s.alpha_numerator) (hd : s.alpha_numerator < s.alpha_denominator)
    (hδ : (s.alpha_numerator * (k - s.average)).tdiv s.alpha_denominator ≠ 0) :
    (k - (s.push_sample k).2.average).natAbs < (k - s.average).natAbs := by
  rw [int_push_average s k h]
  rcases le_total 0 (k - s.average) with hx | hx
  · have hb := tdiv_blend_nonneg s.alpha_numerator s.alpha_denominator (k - s.average) hn hd hx
    omega
  · have hb := tdiv_blend_nonpos s.alpha_numerator s.alpha_denominator (k - s.average) hn hd hx
    omega

/-- Integer-mode constant pushes stabilize: by induction on the distance to
`k`, the average eventually stops moving, and the final residual satisfies
`|numerator * (k - average)| < |denominator|`. -/
theorem int_stabilize_aux (k : ℤ) :
    ∀ (d : Nat) (s : IntSeriesEwmaFilter), s.sample_count ≠ 0 →
      0 < s.alpha_numerator → s.alpha_numerator < s.alpha_denominator →
      (k - s.average).natAbs ≤ d →
      ∃ N, (∀ m, (IntSeriesEwmaFilter.pushConst s k (N + m)).average =
              (IntSeriesEwmaFilter.pushConst s k N).average) ∧
        (s.alpha_numerator * (k - (IntSeriesEwmaFilter.pushConst s k N).average)).natAbs <
          s.alpha_denominator.natAbs := by
  intro d
  induction d with
  | zero =>
    intro s hc hn hd hb
    have hk : k - s.average = 0 := by omega
    have hstall : (s.alpha_numerator * (k - s.average)).tdiv s.alpha_denominator = 0 := by
      rw [hk, mul_zero, Int.zero_tdiv]
    refine ⟨0, fun m => ?_, ?_⟩
    · rw [Nat.zero_add]
      exact int_stall s k hc hstall m
    · show (s.alpha_numerator * (k - s.average)).natAbs < s.alpha_denominator.natAbs
      rw [hk, mul_zero]
      omega
  | succ d ih =>
    intro s hc hn hd hb
    by_cases hδ : (s.alpha_numerator * (k - s.average)).tdiv s.alpha_denominator = 0
    · refine ⟨0, fun m => ?_, ?_⟩
      · rw [Nat.zero_add]
        exact int_stall s k hc hδ m
      · show (s.alpha_numerator * (k - s.average)).natAbs < s.alpha_denominator.natAbs
        have h1 := congrArg Int.natAbs hδ
        rw [Int.natAbs_tdiv] at h1
        have hdpos : 0 < s.alpha_denominator.natAbs := by omega
        exact (Nat.div_eq_zero_iff hdpos).mp h1
    · have hlt := int_step_decrease s k hc hn hd hδ
      have hc' : ((s.push_sample k).2).sample_count ≠ 0 := by
        rw [int_push_count]; omega
      have hn' : 0 < ((s.push_sample k).2).alpha_numerator := by
        rw [(int_push_params s k).1]; exact hn
      have hd' : ((s.push_sample k).2).alpha_numerator <
          ((s.push_sample k).2).alpha_denominator := by
        rw [(int_push_params s k).1, (int_push_params s k).2]; exact hd
      have hb' : (k - ((s.push_sample k).2).average).natAbs ≤ d := by omega
      obtain ⟨N, hN1, hN2⟩ := ih (s.push_sample k).2 hc' hn' hd' hb'
      refine ⟨N + 1, fun m => ?_, ?_⟩
      · have e1 : IntSeriesEwmaFilter.pushConst s k (N + 1 + m) =
            IntSeriesEwmaFilter.pushConst (s.push_sample k).2 k (N + m) := by
          rw [show N + 1 + m = (N + m) + 1 from by omega, int_pushConst_shift]
        rw [e1, int_pushConst_shift s k N]
        exact hN1 m
      · rw [int_pushConst_shift s k N]
        rw [(int_push_params s k).1, (int_push_params s k).2] at hN2
        exact hN2

/-- Integer-mode constant pushes reach, after finitely many steps, a fixed
average within the weight ratio's precision of `k`. -/
theorem int_pushConst_stabilizes (s : IntSeriesEwmaFilter) (k : ℤ)
    (hc : s.sample_count ≠ 0) (hn : 0 < s.alpha_numerator)
    (hd : s.alpha_numerator < s.alpha_denominator) :
    ∃ N, (∀ m, (IntSeriesEwmaFilter.pushConst s k (N + m)).average =
            (IntSeriesEwmaFilter.pushConst s k N).average) ∧
      (s.alpha_numerator * (k - (IntSeriesEwmaFilter.pushConst s k N).average)).natAbs <
        s.alpha_denominator.natAbs :=
  int_stabilize_aux k (k - s.average).natAbs s hc hn hd le_rfl

/-- With a weight ratio `0 < num < den`, the truncating weighted increment of
a strictly positive difference `x` is strictly smaller than `x`. -/
theorem int_blend_lt (num den x : ℤ) (hn : 0 < num) (hd : num < den) (hx : 0 < x) :
    (num * x).tdiv den < x := by
  have h1 := tdiv_blend_nonneg num den x hn hd hx.le
  have h2 : ((num * x).tdiv den).natAbs = num.natAbs * x.natAbs / den.natAbs := by
    rw [Int.natAbs_tdiv, Int.natAbs_mul]
    rfl
  have h3 : num.natAbs * x.natAbs < den.natAbs * x.natAbs :=
    mul_lt_mul_of_pos_right (by omega) (by omega)
  have h4 : num.natAbs * x.natAbs / den.natAbs < x.natAbs := Nat.div_lt_of_lt_mul h3
  omega

/-- Under constant pushes of `k`, an integer-mode average strictly below `k`
stays strictly below `k` (the truncating increment never overshoots). -/
theorem int_avg_stays_below (s : IntSeriesEwmaFilter) (k : ℤ)
    (hc : s.sample_count ≠ 0) (hn : 0 < s.alpha_numerator)
    (hd : s.alpha_numerator < s.alpha_denominator) (hlt : s.average < k) (n : Nat) :
    (IntSeriesEwmaFilter.pushConst s k n).average < k := by
  induction n with
  | zero => exact hlt
  | succ n ih =>
    show ((IntSeriesEwmaFilter.pushConst s k n).push_sample k).2.average < k
    rw [int_push_average _ k (int_pushConst_count_ne s k n hc),
      (int_pushConst_params s k n).1, (int_pushConst_params s k n).2]
    have hblt := int_blend_lt s.alpha_numerator s.alpha_denominator
      (k - (IntSeriesEwmaFilter.pushConst s k n).average) hn hd (by omega)
    omega

/-- Under constant pushes of `k`, an integer-mode average strictly above `k`
stays strictly above `k`. -/
theorem int_avg_stays_above (s : IntSeriesEwmaFilter) (k : ℤ)
    (hc : s.sample_count ≠ 0) (hn : 0 < s.alpha_numerator)
    (hd : s.alpha_numerator < s.alpha_denominator) (hgt : k < s.average) (n : Nat) :
    k < (IntSeriesEwmaFilter.pushConst s k n).average := by
  induction n with
  | zero => exact hgt
  | succ n ih =>
    show k < ((IntSeriesEwmaFilter.pushConst s k n).push_sample k).2.average
    rw [int_push_average _ k (int_pushConst_count_ne s k n hc),
      (int_pushConst_params s k n).1, (int_pushConst_params s k n).2]
    have hblt := int_blend_lt s.alpha_numerator s.alpha_denominator
      ((IntSeriesEwmaFilter.pushConst s k n).average - k) hn hd (by omega)
    have e : s.alpha_numerator * (k - (IntSeriesEwmaFilter.pushConst s k n).average) =
        -(s.alpha_numerator * ((IntSeriesEwmaFilter.pushConst s k n).average - k)) := by ring
    rw [e, Int.neg_tdiv]
    omega

/-- A sequence obeying the snap-or-fade recurrence toward `k` that neither
snaps nor moves at step `0` never moves. -/
theorem int_snap_fade_stall (num den k : ℤ) (f : ℕ → ℤ)
    (hstep : ∀ n, f (n + 1) = if k > f n then k else f n + (num * (k - f n)).tdiv den)
    (hge : ¬ k > f 0) (hstall : (num * (k - f 0)).tdiv den = 0) :
    ∀ m, f m = f 0 := by
  intro m
  induction m with
  | zero => rfl
  | succ m ih => rw [hstep m, ih, if_neg hge, hstall, add_zero]

/-- Any sequence obeying the integer snap-or-fade recurrence toward `k`
becomes constant after finitely many steps, at a value whose weighted
distance to `k` is below the denominator (induction on the distance). -/
theorem int_snap_fade_aux (num den k : ℤ) (hn : 0 < num) (hd : num < den) :
    ∀ (d : Nat) (f : ℕ → ℤ),
      (∀ n, f (n + 1) = if k > f n then k else f n + (num * (k - f n)).tdiv den) →
      (k - f 0).natAbs ≤ d →
      ∃ N, (∀ m, f (N + m) = f N) ∧ (num * (k - f N)).natAbs < den.natAbs := by
  intro d
  induction d with
  | zero =>
    intro f hstep hb
    have hk : k - f 0 = 0 := by omega
    have hstall : (num * (k - f 0)).tdiv den = 0 := by rw [hk, mul_zero, Int.zero_tdiv]
    have hge : ¬ k > f 0 := by omega
    refine ⟨0, fun m => ?_, ?_⟩
    · rw [Nat.zero_add]
      exact int_snap_fade_stall num den k f hstep hge hstall m
    · rw [hk, mul_zero]
      omega
  | succ d ih =>
    intro f hstep hb
    by_cases hsnap : k > f 0
    · have hone : f 1 = k := by rw [hstep 0, if_pos hsnap]
      have hall : ∀ m, f (1 + m) = k := by
        intro m
        induction m with
        | zero => exact hone
        | succ m ihm =>
          show f ((1 + m) + 1) = k
          rw [hstep (1 + m), ihm, if_neg (lt_irrefl k), sub_self, mul_zero,
            Int.zero_tdiv, add_zero]
      refine ⟨1, fun m => by rw [hall m, hone], ?_⟩
      rw [hone, sub_self, mul_zero]
      omega
    · by_cases hstall : (num * (k - f 0)).tdiv den = 0
      · refine ⟨0, fun m => ?_, ?_⟩
        · rw [Nat.zero_add]
          exact int_snap_fade_stall num den k f hstep hsnap hstall m
        · have h1 := congrArg Int.natAbs hstall
          rw [Int.natAbs_tdiv] at h1
          have hdpos : 0 < den.natAbs := by omega
          exact (Nat.div_eq_zero_iff hdpos).mp h1
      · have hstep0 := hstep 0
        rw [if_neg hsnap] at hstep0
        have hbnd := tdiv_blend_nonpos num den (k - f 0) hn hd (by omega)
        have hmeas : (k - f 1).natAbs < (k - f 0).natAbs := by
          rw [hstep0]; omega
        have hm2 : (k - f 1).natAbs ≤ d := by omega
        obtain ⟨N, hN1, hN2⟩ := ih (fun n => f (n + 1)) (fun n => hstep (n + 1)) hm2
        refine ⟨N + 1, fun m => ?_, ?_⟩
        · have h := hN1 m
          show f (N + 1 + m) = f (N + 1)
          rw [show N + 1 + m = N + m + 1 from by omega]
          exact h
        · exact hN2

/-- Wrapper of `int_snap_fade_aux` starting from the sequence's own initial
distance. -/
theorem int_snap_fade_stabilizes (num den k : ℤ) (hn : 0 < num) (hd : num < den)
    (f : ℕ → ℤ)
    (hstep : ∀ n, f (n + 1) = if k > f n then k else f n + (num * (k - f n)).tdiv den) :
    ∃ N, (∀ m, f (N + m) = f N) ∧ (num * (k - f N)).natAbs < den.natAbs :=
  int_snap_fade_aux num den k hn hd (k - f 0).natAbs f hstep le_rfl

/-- When the average is below `k`, the fade condition `k > a'` always holds,
so under constant pushes of `k` the integer-mode `local_max` obeys the
snap-or-fade recurrence toward `k`. -/
theorem int_max_hstep (s : IntSeriesEwmaFilter) (k : ℤ)
    (hc : s.sample_count ≠ 0) (hn : 0 < s.alpha_numerator)
    (hd : s.alpha_numerator < s.alpha_denominator) (hlt : s.average < k) (n : Nat) :
    (IntSeriesEwmaFilter.pushConst s k (n + 1)).local_max =
      if k > (IntSeriesEwmaFilter.pushConst s k n).local_max then k
      else (IntSeriesEwmaFilter.pushConst s k n).local_max +
        (s.alpha_numerator *
          (k - (IntSeriesEwmaFilter.pushConst s k n).local_max)).tdiv s.alpha_denominator := by
  have hcn := int_pushConst_count_ne s k n hc
  have hp := int_pushConst_params s k n
  have havg2 : (IntSeriesEwmaFilter.pushConst s k n).average +
      ((IntSeriesEwmaFilter.pushConst s k n).alpha_numerator *
        (k - (IntSeriesEwmaFilter.pushConst s k n).average)).tdiv
        (IntSeriesEwmaFilter.pushConst s k n).alpha_denominator < k := by
    have h := int_avg_stays_below s k hc hn hd hlt (n + 1)
    rw [show (IntSeriesEwmaFilter.pushConst s k (n + 1)).average =
        ((IntSeriesEwmaFilter.pushConst s k n).push_sample k).2.average from rfl,
      int_push_average _ k hcn] at h
    exact h
  show ((IntSeriesEwmaFilter.pushConst s k n).push_sample k).2.local_max = _
  rw [int_push_local_max _ k hcn]
  by_cases hm : k > (IntSeriesEwmaFilter.pushConst s k n).local_max
  · simp only [if_pos hm]
  · rw [if_neg hm, if_neg hm, if_pos havg2, hp.1, hp.2]

/-- Mirror of `int_max_hstep`: when the average is above `k`, the integer-mode
`local_min` obeys the (downward) snap-or-fade recurrence toward `k`. -/
theorem int_min_hstep (s : IntSeriesEwmaFilter) (k : ℤ)
    (hc : s.sample_count ≠ 0) (hn : 0 < s.alpha_numerator)
    (hd : s.alpha_numerator < s.alpha_denominator) (hgt : k < s.average) (n : Nat) :
    (IntSeriesEwmaFilter.pushConst s k (n + 1)).local_min =
      if k < (IntSeriesEwmaFilter.pushConst s k n).local_min then k
      else (IntSeriesEwmaFilter.pushConst s k n).local_min +
        (s.alpha_numerator *
          (k - (IntSeriesEwmaFilter.pushConst s k n).local_min)).tdiv s.alpha_denominator := by
  have hcn := int_pushConst_count_ne s k n hc
  have hp := int_pushConst_params s k n
  have havg2 : k < (IntSeriesEwmaFilter.pushConst s k n).average +
      ((IntSeriesEwmaFilter.pushConst s k n).alpha_numerator *
        (k - (IntSeriesEwmaFilter.pushConst s k n).average)).tdiv
        (IntSeriesEwmaFilter.pushConst s k n).alpha_denominator := by
    have h := int_avg_stays_above s k hc hn hd hgt (n + 1)
    rw [show (IntSeriesEwmaFilter.pushConst s k (n + 1)).average =
        ((IntSeriesEwmaFilter.pushConst s k n).push_sample k).2.average from rfl,
      int_push_average _ k hcn] at h
    exact h
  show ((IntSeriesEwmaFilter.pushConst s k n).push_sample k).2.local_min = _
  rw [int_push_local_min _ k hcn]
  by_cases hm : k < (IntSeriesEwmaFilter.pushConst s k n).local_min
  · simp only [if_pos hm]
  · rw [if_neg hm, if_neg hm, if_pos havg2, hp.1, hp.2]

/-- Integer-mode `local_max` under constant pushes of `k`, starting with the
average strictly below `k`: it becomes constant after finitely many pushes,
within the ratio's precision of `k`. -/
theorem int_max_stabilizes (s : IntSeriesEwmaFilter) (k : ℤ)
    (hc : s.sample_count ≠ 0) (hn : 0 < s.alpha_numerator)
    (hd : s.alpha_numerator < s.alpha_denominator) (hlt : s.average < k) :
    ∃ N, (∀ m, (IntSeriesEwmaFilter.pushConst s k (N + m)).local_max =
            (IntSeriesEwmaFilter.pushConst s k N).local_max) ∧
      (s.alpha_numerator *
        (k - (IntSeriesEwmaFilter.pushConst s k N).local_max)).natAbs <
        s.alpha_denominator.natAbs :=
  int_snap_fade_stabilizes s.alpha_numerator s.alpha_denominator k hn hd
    (fun n => (IntSeriesEwmaFilter.pushConst s k n).local_max)
    (int_max_hstep s k hc hn hd hlt)

/-- Integer-mode `local_min` under constant pushes of `k`, starting with the
average strictly above `k`: it becomes constant after finitely many pushes,
within the ratio's precision of `k`.  Proved from the `local_max` form by
negating the sequence. -/
theorem int_min_stabilizes (s : IntSeriesEwmaFilter) (k : ℤ)
    (hc : s.sample_count ≠ 0) (hn : 0 < s.alpha_numerator)
    (hd : s.alpha_numerator < s.alpha_denominator) (hgt : k < s.average) :
    ∃ N, (∀ m, (IntSeriesEwmaFilter.pushConst s k (N + m)).local_min =
            (IntSeriesEwmaFilter.pushConst s k N).local_min) ∧
      (s.alpha_numerator *
        (k - (IntSeriesEwmaFilter.pushConst s k N).local_min)).natAbs <
        s.alpha_denominator.natAbs := by
  have hstepf := int_min_hstep s k hc hn hd hgt
  have hstepg : ∀ n, (fun n => -(IntSeriesEwmaFilter.pushConst s k n).local_min) (n + 1) =
      if -k > (fun n => -(IntSeriesEwmaFilter.pushConst s k n).local_min) n then -k
      else (fun n => -(IntSeriesEwmaFilter.pushConst s k n).local_min) n +
        (s.alpha_numerator *
          (-k - (fun n => -(IntSeriesEwmaFilter.pushConst s k n).local_min) n)).tdiv
          s.alpha_denominator := by
    intro n
    show -(IntSeriesEwmaFilter.pushConst s k (n + 1)).local_min = _
    rw [hstepf n]
    by_cases hm : k < (IntSeriesEwmaFilter.pushConst s k n).local_min
    · rw [if_pos hm, if_pos (show -k > -(IntSeriesEwmaFilter.pushConst s k n).local_min by omega)]
    · rw [if_neg hm,
        if_neg (show ¬ -k > -(IntSeriesEwmaFilter.pushConst s k n).local_min by omega)]
      have e : s.alpha_numerator *
          (-k - -(IntSeriesEwmaFilter.pushConst s k n).local_min) =
          -(s.alpha_numerator *
            (k - (IntSeriesEwmaFilter.pushConst s k n).local_min)) := by ring
      rw [e, Int.neg_tdiv]
      ring
  obtain ⟨N, hN1, hN2⟩ := int_snap_fade_stabilizes s.alpha_numerator s.alpha_denominator
    (-k) hn hd (fun n => -(IntSeriesEwmaFilter.pushConst s k n).local_min) hstepg
  refine ⟨N, fun m => ?_, ?_⟩
  · have h := hN1 m
    simp only at h
    omega
  · have e : s.alpha_numerator * (-k - -(IntSeriesEwmaFilter.pushConst s k N).local_min) =
        -(s.alpha_numerator * (k - (IntSeriesEwmaFilter.pushConst s k N).local_min)) := by
      ring
    have h := hN2
    simp only at h
    rw [e, Int.natAbs_neg] at h
    exact h

/-! ### Claim C7 -/

theorem sStar_eval : sStar = ⟨2, -200, 1000, 400, 1/2⟩ := by
  norm_num [sStar, FloatSeriesEwmaFilter.pushList, FloatSeriesEwmaFilter.push_sample,
    FloatSeriesEwmaFilter.new]

/-- Pushing the constant `400` into `sStar` never moves any observable field:
the average already equals the pushed value, and since the sample is not
strictly beyond the (strict) fade conditions, both extrema stay put. -/
theorem sStar_fixed (n : Nat) :
    (FloatSeriesEwmaFilter.pushConst sStar 400 n).average = 400 ∧
    (FloatSeriesEwmaFilter.pushConst sStar 400 n).local_min = -200 ∧
    (FloatSeriesEwmaFilter.pushConst sStar 400 n).local_max = 1000 ∧
    (FloatSeriesEwmaFilter.pushConst sStar 400 n).sample_count ≠ 0 := by
  induction n with
  | zero =>
    rw [show FloatSeriesEwmaFilter.pushConst sStar 400 0 = sStar from rfl, sStar_eval]
    exact ⟨rfl, rfl, rfl, by decide⟩
  | succ n ih =>
    obtain ⟨ha, hmn, hmx, hc⟩ := ih
    have hα : (FloatSeriesEwmaFilter.pushConst sStar 400 n).alpha = 1/2 := by
      rw [float_pushConst_alpha, sStar_eval]
    refine ⟨?_, ?_, ?_, ?_⟩
    · show ((FloatSeriesEwmaFilter.pushConst sStar 400 n).push_sample 400).2.average = 400
      rw [float_push_average _ _ hc, ha, hα]
      norm_num
    · show ((FloatSeriesEwmaFilter.pushConst sStar 400 n).push_sample 400).2.local_min = -200
      rw [float_push_local_min _ _ hc, hmn, ha, hα]
      norm_num
    · show ((FloatSeriesEwmaFilter.pushConst sStar 400 n).push_sample 400).2.local_max = 1000
      rw [float_push_local_max _ _ hc, hmx, ha, hα]
      norm_num
    · show ((FloatSeriesEwmaFilter.pushConst sStar 400 n).push_sample 400).2.sample_count ≠ 0
      rw [float_push_count]
      omega

/-- Counterexample to C7 as stated: `sStar` is a reachable seeded float-mode
state with a valid weight `alpha = 1/2 ∈ (0,1)`, yet pushing the constant
`400` forever leaves `local_max = 1000`, which therefore does not converge
to `400`. -/
theorem C7_convergence_counterexample :
    sStar.sample_count ≠ 0 ∧ 0 < sStar.alpha ∧ sStar.alpha < 1 ∧
    ¬ ConvergesTo (fun n => (FloatSeriesEwmaFilter.pushConst sStar 400 n).local_max) 400 := by
  refine ⟨?_, ?_, ?_, ?_⟩
  · rw [sStar_eval]; decide
  · rw [sStar_eval]; show (0:ℚ) < 1/2; norm_num
  · rw [sStar_eval]; show (1:ℚ)/2 < 1; norm_num
  intro h
  obtain ⟨N, hN⟩ := h 1 one_pos
  have h2 : |(FloatSeriesEwmaFilter.pushConst sStar 400 N).local_max - 400| < 1 :=
    hN N le_rfl
  rw [(sStar_fixed N).2.2.1] at h2
  norm_num at h2

/-- C7 (amended): pushing a constant `k` after seeding converges the average
to `k` in both modes (float mode geometrically; integer mode becomes
constant after finitely many pushes, within the weight ratio's precision of
`k`), and an extremum converges to `k` — exactly in float mode, within the
ratio's precision in integer mode — when `k` lies strictly beyond the
current average on that extremum's side: `local_max` if `average < k`,
`local_min` if `k < average`.  (An extremum on the other side can stay
unchanged forever: see the counterexample.) -/
theorem C7_constant_push_limits (sf : FloatSeriesEwmaFilter) (k : ℚ)
    (si : IntSeriesEwmaFilter) (kI : ℤ)
    (hf : sf.sample_count ≠ 0) (h0 : 0 < sf.alpha) (h1 : sf.alpha < 1)
    (hi : si.sample_count ≠ 0) (hn : 0 < si.alpha_numerator)
    (hd : si.alpha_numerator < si.alpha_denominator) :
    ConvergesTo (fun n => (FloatSeriesEwmaFilter.pushConst sf k n).average) k ∧
    (sf.average < k →
      ConvergesTo (fun n => (FloatSeriesEwmaFilter.pushConst sf k n).local_max) k) ∧
    (k < sf.average →
      ConvergesTo (fun n => (FloatSeriesEwmaFilter.pushConst sf k n).local_min) k) ∧
    (∃ N, (∀ m, (IntSeriesEwmaFilter.pushConst si kI (N + m)).average =
            (IntSeriesEwmaFilter.pushConst si kI N).average) ∧
      (si.alpha_numerator * (kI - (IntSeriesEwmaFilter.pushConst si kI N).average)).natAbs <
        si.alpha_denominator.natAbs) ∧
    (si.average < kI →
      ∃ N, (∀ m, (IntSeriesEwmaFilter.pushConst si kI (N + m)).local_max =
              (IntSeriesEwmaFilter.pushConst si kI N).local_max) ∧
        (si.alpha_numerator *
          (kI - (IntSeriesEwmaFilter.pushConst si kI N).local_max)).natAbs <
          si.alpha_denominator.natAbs) ∧
    (kI < si.average →
      ∃ N, (∀ m, (IntSeriesEwmaFilter.pushConst si kI (N + m)).local_min =
              (IntSeriesEwmaFilter.pushConst si kI N).local_min) ∧
        (si.alpha_numerator *
          (kI - (IntSeriesEwmaFilter.pushConst si kI N).local_min)).natAbs <
          si.alpha_denominator.natAbs) := by
  refine ⟨?_, ?_, ?_, int_pushConst_stabilizes si kI hi hn hd,
    fun hlt => int_max_stabilizes si kI hi hn hd hlt,
    fun hgt => int_min_stabilizes si kI hi hn hd hgt⟩
  · refine geom_convergesTo _ k (1 - sf.alpha) (by linarith) (by linarith) ?_
    intro n
    have hstep := float_avg_step (FloatSeriesEwmaFilter.pushConst sf k n) k
      (float_pushConst_count_ne sf k n hf)
    rw [float_pushConst_alpha] at hstep
    show |((FloatSeriesEwmaFilter.pushConst sf k n).push_sample k).2.average - k| ≤ _
    rw [hstep, abs_mul, abs_of_nonneg (by linarith : (0:ℚ) ≤ 1 - sf.alpha)]
  · intro hlt
    refine geom_convergesTo _ k (1 - sf.alpha) (by linarith) (by linarith) ?_
    intro n
    show |((FloatSeriesEwmaFilter.pushConst sf k n).push_sample k).2.local_max - k| ≤ _
    have hfade := float_push_max_fade (FloatSeriesEwmaFilter.pushConst sf k n) k
      (float_pushConst_count_ne sf k n hf)
      (by rw [float_pushConst_alpha]; exact h1)
      (float_avg_stays_below sf k hf h1 hlt n)
    rwa [float_pushConst_alpha] at hfade
  · intro hgt
    refine geom_convergesTo _ k (1 - sf.alpha) (by linarith) (by linarith) ?_
    intro n
    show |((FloatSeriesEwmaFilter.pushConst sf k n).push_sample k).2.local_min - k| ≤ _
    have hfade := float_push_min_fade (FloatSeriesEwmaFilter.pushConst sf k n) k
      (float_pushConst_count_ne sf k n hf)
      (by rw [float_pushConst_alpha]; exact h1)
      (float_avg_stays_above sf k hf h1 hgt n)
    rwa [float_pushConst_alpha] at hfade

/-- Witness for the amended C7 at `sfZero`, `siZero` with `k = 1`. -/
theorem C7_constant_push_limits_witness :
    ConvergesTo (fun n => (FloatSeriesEwmaFilter.pushConst sfZero 1 n).average) 1 ∧
    (sfZero.average < 1 →
      ConvergesTo (fun n => (FloatSeriesEwmaFilter.pushConst sfZero 1 n).local_max) 1) ∧
    (1 < sfZero.average →
      ConvergesTo (fun n => (FloatSeriesEwmaFilter.pushConst sfZero 1 n).local_min) 1) ∧
    (∃ N, (∀ m, (IntSeriesEwmaFilter.pushConst siZero 1 (N + m)).average =
            (IntSeriesEwmaFilter.pushConst siZero 1 N).average) ∧
      (siZero.alpha_numerator * (1 - (IntSeriesEwmaFilter.pushConst siZero 1 N).average)).natAbs <
        siZero.alpha_denominator.natAbs) ∧
    (siZero.average < 1 →
      ∃ N, (∀ m, (IntSeriesEwmaFilter.pushConst siZero 1 (N + m)).local_max =
              (IntSeriesEwmaFilter.pushConst siZero 1 N).local_max) ∧
        (siZero.alpha_numerator *
          (1 - (IntSeriesEwmaFilter.pushConst siZero 1 N).local_max)).natAbs <
          siZero.alpha_denominator.natAbs) ∧
    (1 < siZero.average →
      ∃ N, (∀ m, (IntSeriesEwmaFilter.pushConst siZero 1 (N + m)).local_min =
              (IntSeriesEwmaFilter.pushConst siZero 1 N).local_min) ∧
        (siZero.alpha_numerator *
          (1 - (IntSeriesEwmaFilter.pushConst siZero 1 N).local_min)).natAbs <
          siZero.alpha_denominator.natAbs) :=
  C7_constant_push_limits sfZero 1 siZero 1
    (by decide) (by show (0:ℚ) < 1/2; norm_num) (by show (1:ℚ)/2 < 1; norm_num)
    (by decide) (by decide) (by decide)

end TimeSeriesFilter
